import Mathlib

/-!
Shallow embedding of the section-resolution core of
`src/tools/swift-reflection-dump/swift-reflection-dump.cpp`.

The embedding models an object file as its section table: a list of named
sections in declaration order, each exposing a contiguous byte range given
by a start address and a size.  Pointers are modelled as `Nat` offsets with
`0` playing the role of the C++ null pointer, so the `{nullptr, nullptr}`
sentinel used for absent optional sections becomes the byte range `⟨0, 0⟩`.
Process exit on error (`unwrap` / `return EXIT_FAILURE`) is modelled by an
`Except` error value: a run that ends in `.error e` is a run in which the
reporting sink (`builder.dumpAllSections`) is never invoked.
-/

namespace SwiftReflectionDump

/-- A named contiguous byte range inside an object file, as exposed by the
LLVM section table: `getContents` yields the half-open range
`[addr, addr + size)`. -/
structure ObjSection where
  name : String
  addr : Nat
  size : Nat
deriving DecidableEq, Repr

/-- An object file, reduced to the part the tool reads: its section table
in declaration order. -/
abbrev ObjectFile := List ObjSection

/-- An immutable pair of offsets into the owning buffer; `stop` models the
C++ `end` pointer of the range. -/
structure ByteRange where
  start : Nat
  stop : Nat
deriving DecidableEq, Repr

/-- The `{nullptr, nullptr}` sentinel: `0` models the null pointer. -/
def ByteRange.absent : ByteRange := ⟨0, 0⟩

/-- The byte range of a section's contents, as produced by
`section.getContents`: from its start address to start plus size. -/
def ObjSection.range (s : ObjSection) : ByteRange := ⟨s.addr, s.addr + s.size⟩

/-- Embeds `getSectionRef` (swift-reflection-dump.cpp:79-92): scan the
section table in declaration order; for each section, compare its name
with every desired name using exact `StringRef::equals`; return the first
section that matches, or `none` for the null `SectionRef`. -/
def getSectionRef (objectFile : ObjectFile) (anySectionNames : List String) :
    Option ObjSection :=
  match objectFile with
  | [] => none
  | s :: rest =>
    if anySectionNames.any (fun desiredName => s.name == desiredName) then
      some s
    else
      getSectionRef rest anySectionNames

/-- The five metadata section categories handled by
`doDumpReflectionSections`, in the order the code looks them up. -/
inductive SectionCategory
  | Field
  | AssociatedType
  | BuiltinType
  | TypeRef
  | ReflectionStrings
deriving DecidableEq, Repr

/-- The alias lists passed to `getSectionRef` for each category
(swift-reflection-dump.cpp:117-189): a Mach-O spelling and an
ELF/COFF spelling. -/
def sectionAliases : SectionCategory → List String
  | .Field => ["__swift3_fieldmd", ".swift3_fieldmd"]
  | .AssociatedType => ["__swift3_assocty", ".swift3_assocty"]
  | .BuiltinType => ["__swift3_builtin", ".swift3_builtin"]
  | .TypeRef => ["__swift3_typeref", ".swift3_typeref"]
  | .ReflectionStrings => ["__swift3_reflstr", ".swift3_reflstr"]

/-- Which categories make `doDumpReflectionSections` fail when absent:
Field, TypeRef and ReflectionStrings are required; AssociatedType and
BuiltinType are optional. -/
def SectionCategory.isRequired : SectionCategory → Bool
  | .Field => true
  | .AssociatedType => false
  | .BuiltinType => false
  | .TypeRef => true
  | .ReflectionStrings => true

/-- The errors through which a run can terminate without reaching the
reporting sink. -/
inductive DumpError
  | loadError (path : String)
  | architectureNotFound (arch : String)
  | missingRequiredSection (binaryFilename : String) (category : SectionCategory)
deriving DecidableEq, Repr

/-- The reflection-info bundle built at swift-reflection-dump.cpp:206-215:
one byte range per category plus the originating binary's display name. -/
structure SectionBundle where
  binaryFilename : String
  fieldSection : ByteRange
  associatedTypeSection : ByteRange
  builtinTypeSection : ByteRange
  typeRefSection : ByteRange
  reflectionStringsSection : ByteRange
deriving DecidableEq, Repr

/-- The byte range a bundle records for a category. -/
def SectionBundle.rangeOf (b : SectionBundle) : SectionCategory → ByteRange
  | .Field => b.fieldSection
  | .AssociatedType => b.associatedTypeSection
  | .BuiltinType => b.builtinTypeSection
  | .TypeRef => b.typeRefSection
  | .ReflectionStrings => b.reflectionStringsSection

/-- Embeds the section-assembly part of `doDumpReflectionSections`
(swift-reflection-dump.cpp:116-221), in the code's lookup order: Field
(required), AssociatedType (optional, sentinel when absent), BuiltinType
(optional, sentinel when absent), TypeRef (required), ReflectionStrings
(required).  A missing required section aborts the run with
`MissingRequiredSectionError` carrying the binary's display name. -/
def assemble (objectFile : ObjectFile) (binaryFilename : String) :
    Except DumpError SectionBundle :=
  match getSectionRef objectFile (sectionAliases .Field) with
  | none => .error (.missingRequiredSection binaryFilename .Field)
  | some fieldSec =>
    let associatedTypeSection : ByteRange :=
      match getSectionRef objectFile (sectionAliases .AssociatedType) with
      | none => ByteRange.absent
      | some s => s.range
    let builtinTypeSection : ByteRange :=
      match getSectionRef objectFile (sectionAliases .BuiltinType) with
      | none => ByteRange.absent
      | some s => s.range
    match getSectionRef objectFile (sectionAliases .TypeRef) with
    | none => .error (.missingRequiredSection binaryFilename .TypeRef)
    | some typeRefSec =>
      match getSectionRef objectFile (sectionAliases .ReflectionStrings) with
      | none => .error (.missingRequiredSection binaryFilename .ReflectionStrings)
      | some reflSec =>
        .ok {
          binaryFilename := binaryFilename
          fieldSection := fieldSec.range
          associatedTypeSection := associatedTypeSection
          builtinTypeSection := builtinTypeSection
          typeRefSection := typeRefSec.range
          reflectionStringsSection := reflSec.range
        }

/-- A loaded binary, classified as `createBinary` classifies it: either a
flat single-architecture object file, or a multi-slice universal container
exposing (architecture name, nested object) entries. -/
inductive Binary
  | flat (objectFile : ObjectFile)
  | universal (slices : List (String × ObjectFile))
deriving DecidableEq, Repr

/-- The possible states of an input path, abstracting the file system. -/
inductive RawInput
  | missing
  | unreadable
  | unrecognized
  | valid (b : Binary)
deriving DecidableEq, Repr

/-- Modelled from the spec: `llvm::object::createBinary` is LLVM library
code not under `src/`; spec §4.1 gives its contract — `load(path)` fails
with `LoadError` when the path does not exist, is unreadable, or is not a
recognized binary container format, and otherwise yields the classified
binary. -/
def load (input : RawInput) (path : String) : Except DumpError Binary :=
  match input with
  | .missing => .error (.loadError path)
  | .unreadable => .error (.loadError path)
  | .unrecognized => .error (.loadError path)
  | .valid b => .ok b

/-- Modelled from the spec: `MachOUniversalBinary::getObjectForArch` is
LLVM library code not under `src/`; spec §4.2 gives its contract — exact
string match against each slice's declared architecture, first match wins,
`ArchitectureNotFoundError` if no slice matches. -/
def selectSlice (slices : List (String × ObjectFile)) (arch : String) :
    Except DumpError ObjectFile :=
  match slices.find? (fun p => p.1 == arch) with
  | some p => .ok p.2
  | none => .error (.architectureNotFound arch)

/-- Embeds the full run of `doDumpReflectionSections`
(swift-reflection-dump.cpp:94-221): load the binary; if it is already a
flat object file use it directly (the requested architecture is never
consulted), otherwise select the requested slice of the universal
container; then assemble the five sections.  `.ok` means the bundle was
handed to the reporting sink; `.error` means the process exited first. -/
def doDumpReflectionSections (input : RawInput) (binaryFilename : String)
    (arch : String) : Except DumpError SectionBundle := do
  let binaryFile ← load input binaryFilename
  let objectFile ←
    match binaryFile with
    | .flat o => pure o
    | .universal slices => selectSlice slices arch
  assemble objectFile binaryFilename

/-- A concrete object file whose section table carries exactly the three
required sections, each 4 bytes long (spec §8's first concrete scenario,
with Mach-O spellings). -/
def demoObj : ObjectFile :=
  [⟨"__swift3_fieldmd", 100, 4⟩, ⟨"__swift3_typeref", 104, 4⟩,
    ⟨"__swift3_reflstr", 108, 4⟩]

/-- The bundle `assemble` produces for `demoObj`. -/
def demoBundle : SectionBundle :=
  ⟨"libDemo.dylib", ⟨100, 104⟩, ⟨0, 0⟩, ⟨0, 0⟩, ⟨104, 108⟩, ⟨108, 112⟩⟩

/-! ### Helper lemmas about `getSectionRef` -/

/-- The inner alias loop of `getSectionRef` succeeds exactly when the
section's name is literally one of the desired names. -/
theorem anyMatch_iff (anySectionNames : List String) (s : ObjSection) :
    (anySectionNames.any (fun desiredName => s.name == desiredName) = true) ↔
      s.name ∈ anySectionNames := by
  rw [List.any_eq_true]
  constructor
  · rintro ⟨d, hd, he⟩
    rw [beq_iff_eq] at he
    rw [he]
    exact hd
  · intro h
    exact ⟨s.name, h, by rw [beq_iff_eq]⟩

/-- `getSectionRef` returns `none` exactly when no section's name is one of
the desired names. -/
theorem getSectionRef_eq_none_iff (objectFile : ObjectFile)
    (anySectionNames : List String) :
    getSectionRef objectFile anySectionNames = none ↔
      ∀ s ∈ objectFile, s.name ∉ anySectionNames := by
  induction objectFile with
  | nil => simp [getSectionRef]
  | cons a rest ih =>
    rw [getSectionRef]
    by_cases h : a.name ∈ anySectionNames
    · rw [if_pos ((anyMatch_iff anySectionNames a).mpr h)]
      simp [h]
    · rw [if_neg (fun hc => h ((anyMatch_iff anySectionNames a).mp hc)), ih]
      simp [h]

/-- `getSectionRef` returns `some s` exactly when `s` matches one of the
desired names and occurs in the section table after a (possibly empty)
prefix of sections none of which matches. -/
theorem getSectionRef_eq_some_iff (objectFile : ObjectFile)
    (anySectionNames : List String) (s : ObjSection) :
    getSectionRef objectFile anySectionNames = some s ↔
      s.name ∈ anySectionNames ∧
        ∃ pre post, objectFile = pre ++ s :: post ∧
          ∀ t ∈ pre, t.name ∉ anySectionNames := by
  induction objectFile with
  | nil => simp [getSectionRef]
  | cons a rest ih =>
    rw [getSectionRef]
    by_cases h : a.name ∈ anySectionNames
    · rw [if_pos ((anyMatch_iff anySectionNames a).mpr h)]
      constructor
      · rintro ⟨rfl⟩
        exact ⟨h, [], rest, rfl, by simp⟩
      · rintro ⟨hs, pre, post, heq, hpre⟩
        match pre, heq with
        | [], heq =>
          rw [List.nil_append] at heq
          exact congrArg some (List.cons.inj heq).1
        | b :: pre', heq =>
          rw [List.cons_append] at heq
          obtain ⟨rfl, -⟩ := List.cons.inj heq
          exact absurd h (hpre a (List.mem_cons_self a pre'))
    · rw [if_neg (fun hc => h ((anyMatch_iff anySectionNames a).mp hc)), ih]
      constructor
      · rintro ⟨hs, pre, post, rfl, hpre⟩
        refine ⟨hs, a :: pre, post, rfl, ?_⟩
        intro t ht
        rcases List.mem_cons.mp ht with rfl | ht
        · exact h
        · exact hpre t ht
      · rintro ⟨hs, pre, post, heq, hpre⟩
        match pre, heq with
        | [], heq =>
          rw [List.nil_append] at heq
          obtain ⟨rfl, -⟩ := List.cons.inj heq
          exact absurd hs h
        | b :: pre', heq =>
          rw [List.cons_append] at heq
          obtain ⟨rfl, rfl⟩ := List.cons.inj heq
          exact ⟨hs, pre', post, rfl, fun t ht =>
            hpre t (List.mem_cons_of_mem a ht)⟩

/-! ### Helper lemmas about `assemble` -/

/-- The byte range `assemble` records for an optional category: the located
section's range, or the `{nullptr, nullptr}` sentinel when absent. -/
def optionalRange (objectFile : ObjectFile) (c : SectionCategory) : ByteRange :=
  match getSectionRef objectFile (sectionAliases c) with
  | none => ByteRange.absent
  | some s => s.range

/-- When the Field section is missing, `assemble` fails on it at once. -/
theorem assemble_eq_error_field (objectFile : ObjectFile) (binaryFilename : String)
    (hf : getSectionRef objectFile (sectionAliases .Field) = none) :
    assemble objectFile binaryFilename =
      .error (.missingRequiredSection binaryFilename .Field) := by
  simp only [assemble, hf]

/-- When Field is present but TypeRef is missing, `assemble` fails on
TypeRef. -/
theorem assemble_eq_error_typeRef (objectFile : ObjectFile)
    (binaryFilename : String) (fs : ObjSection)
    (hf : getSectionRef objectFile (sectionAliases .Field) = some fs)
    (ht : getSectionRef objectFile (sectionAliases .TypeRef) = none) :
    assemble objectFile binaryFilename =
      .error (.missingRequiredSection binaryFilename .TypeRef) := by
  simp only [assemble, hf, ht]

/-- When Field and TypeRef are present but ReflectionStrings is missing,
`assemble` fails on ReflectionStrings. -/
theorem assemble_eq_error_reflStrings (objectFile : ObjectFile)
    (binaryFilename : String) (fs trs : ObjSection)
    (hf : getSectionRef objectFile (sectionAliases .Field) = some fs)
    (ht : getSectionRef objectFile (sectionAliases .TypeRef) = some trs)
    (hr : getSectionRef objectFile (sectionAliases .ReflectionStrings) = none) :
    assemble objectFile binaryFilename =
      .error (.missingRequiredSection binaryFilename .ReflectionStrings) := by
  simp only [assemble, hf, ht, hr]

/-- When all three required sections are present, `assemble` succeeds and
the bundle records each located range, with the optional categories going
through `optionalRange`. -/
theorem assemble_eq_ok (objectFile : ObjectFile) (binaryFilename : String)
    (fs trs rss : ObjSection)
    (hf : getSectionRef objectFile (sectionAliases .Field) = some fs)
    (ht : getSectionRef objectFile (sectionAliases .TypeRef) = some trs)
    (hr : getSectionRef objectFile (sectionAliases .ReflectionStrings) = some rss) :
    assemble objectFile binaryFilename = .ok {
      binaryFilename := binaryFilename
      fieldSection := fs.range
      associatedTypeSection := optionalRange objectFile .AssociatedType
      builtinTypeSection := optionalRange objectFile .BuiltinType
      typeRefSection := trs.range
      reflectionStringsSection := rss.range
    } := by
  simp only [assemble, hf, ht, hr, optionalRange]

/-- Inversion: a successful `assemble` pins down the bundle and implies all
three required sections were found. -/
theorem assemble_ok_inv (objectFile : ObjectFile) (binaryFilename : String)
    (b : SectionBundle) (h : assemble objectFile binaryFilename = .ok b) :
    ∃ fs trs rss : ObjSection,
      getSectionRef objectFile (sectionAliases .Field) = some fs ∧
        getSectionRef objectFile (sectionAliases .TypeRef) = some trs ∧
        getSectionRef objectFile (sectionAliases .ReflectionStrings) = some rss ∧
        b = {
          binaryFilename := binaryFilename
          fieldSection := fs.range
          associatedTypeSection := optionalRange objectFile .AssociatedType
          builtinTypeSection := optionalRange objectFile .BuiltinType
          typeRefSection := trs.range
          reflectionStringsSection := rss.range
        } := by
  cases hf : getSectionRef objectFile (sectionAliases .Field) with
  | none => rw [assemble_eq_error_field objectFile binaryFilename hf] at h; cases h
  | some fs =>
    cases ht : getSectionRef objectFile (sectionAliases .TypeRef) with
    | none =>
      rw [assemble_eq_error_typeRef objectFile binaryFilename fs hf ht] at h
      cases h
    | some trs =>
      cases hr : getSectionRef objectFile (sectionAliases .ReflectionStrings) with
      | none =>
        rw [assemble_eq_error_reflStrings objectFile binaryFilename fs trs hf ht hr] at h
        cases h
      | some rss =>
        rw [assemble_eq_ok objectFile binaryFilename fs trs rss hf ht hr] at h
        exact ⟨fs, trs, rss, rfl, rfl, rfl, (Except.ok.inj h).symm⟩

/-- Inversion: a failed `assemble` always names a required category that is
indeed missing, together with the binary's display name. -/
theorem assemble_error_inv (objectFile : ObjectFile) (binaryFilename : String)
    (e : DumpError) (h : assemble objectFile binaryFilename = .error e) :
    ∃ c : SectionCategory, c.isRequired = true ∧
      getSectionRef objectFile (sectionAliases c) = none ∧
      e = .missingRequiredSection binaryFilename c := by
  cases hf : getSectionRef objectFile (sectionAliases .Field) with
  | none =>
    rw [assemble_eq_error_field objectFile binaryFilename hf] at h
    exact ⟨.Field, rfl, hf, (Except.error.inj h).symm⟩
  | some fs =>
    cases ht : getSectionRef objectFile (sectionAliases .TypeRef) with
    | none =>
      rw [assemble_eq_error_typeRef objectFile binaryFilename fs hf ht] at h
      exact ⟨.TypeRef, rfl, ht, (Except.error.inj h).symm⟩
    | some trs =>
      cases hr : getSectionRef objectFile (sectionAliases .ReflectionStrings) with
      | none =>
        rw [assemble_eq_error_reflStrings objectFile binaryFilename fs trs hf ht hr] at h
        exact ⟨.ReflectionStrings, rfl, hr, (Except.error.inj h).symm⟩
      | some rss =>
        rw [assemble_eq_ok objectFile binaryFilename fs trs rss hf ht hr] at h
        cases h

/-! ### Helper lemmas about the full run -/

/-- On a flat object file the run goes straight to assembly; the requested
architecture is never consulted. -/
theorem doDump_flat (o : ObjectFile) (binaryFilename arch : String) :
    doDumpReflectionSections (.valid (.flat o)) binaryFilename arch =
      assemble o binaryFilename := rfl

/-- On a universal container the run selects the requested slice and then
assembles it. -/
theorem doDump_universal (slices : List (String × ObjectFile))
    (binaryFilename arch : String) :
    doDumpReflectionSections (.valid (.universal slices)) binaryFilename arch =
      (selectSlice slices arch).bind (fun o => assemble o binaryFilename) := rfl

/-- When no slice's declared architecture is an exact match, `selectSlice`
fails with the architecture-not-found error. -/
theorem selectSlice_eq_error (slices : List (String × ObjectFile)) (arch : String)
    (h : ∀ p ∈ slices, p.1 ≠ arch) :
    selectSlice slices arch = .error (.architectureNotFound arch) := by
  have hfind : slices.find? (fun p => p.1 == arch) = none := by
    rw [List.find?_eq_none]
    intro p hp hbeq
    exact h p hp (beq_iff_eq.mp hbeq)
  unfold selectSlice
  rw [hfind]

/-! ### Claim theorems -/

/-- Claim C1: for every object file and every non-empty alias list,
`getSectionRef` scans the section table in declaration order and returns
the first section whose name is a case-sensitive exact match of some alias
(its byte range being `ObjSection.range` of the result); if no section's
name exactly matches any alias it returns the null `SectionRef`, modelled
as `none`. -/
theorem getSectionRef_first_exact_match (objectFile : ObjectFile)
    (anySectionNames : List String) (hne : anySectionNames ≠ []) :
    (∀ s : ObjSection, getSectionRef objectFile anySectionNames = some s ↔
        s.name ∈ anySectionNames ∧
          ∃ pre post, objectFile = pre ++ s :: post ∧
            ∀ t ∈ pre, t.name ∉ anySectionNames) ∧
      (getSectionRef objectFile anySectionNames = none ↔
        ∀ s ∈ objectFile, s.name ∉ anySectionNames) := by
  exact ⟨fun s => getSectionRef_eq_some_iff objectFile anySectionNames s,
    getSectionRef_eq_none_iff objectFile anySectionNames⟩

/-- Witness for C1 at a concrete object file and the Field alias list. -/
theorem getSectionRef_first_exact_match_witness :
    (["__swift3_fieldmd", ".swift3_fieldmd"] : List String) ≠ [] ∧
      (∀ s : ObjSection,
          getSectionRef [⟨"__text", 0, 4⟩, ⟨".swift3_fieldmd", 4, 8⟩]
              ["__swift3_fieldmd", ".swift3_fieldmd"] = some s ↔
            s.name ∈ ["__swift3_fieldmd", ".swift3_fieldmd"] ∧
              ∃ pre post,
                [⟨"__text", 0, 4⟩, ⟨".swift3_fieldmd", 4, 8⟩] =
                    pre ++ s :: post ∧
                  ∀ t ∈ pre, t.name ∉ ["__swift3_fieldmd", ".swift3_fieldmd"]) ∧
      (getSectionRef [⟨"__text", 0, 4⟩, ⟨".swift3_fieldmd", 4, 8⟩]
            ["__swift3_fieldmd", ".swift3_fieldmd"] = none ↔
        ∀ s ∈ ([⟨"__text", 0, 4⟩, ⟨".swift3_fieldmd", 4, 8⟩] : ObjectFile),
          s.name ∉ ["__swift3_fieldmd", ".swift3_fieldmd"]) := by
  refine ⟨by decide, ?_, ?_⟩
  · exact (getSectionRef_first_exact_match
      [⟨"__text", 0, 4⟩, ⟨".swift3_fieldmd", 4, 8⟩]
      ["__swift3_fieldmd", ".swift3_fieldmd"] (by decide)).1
  · exact (getSectionRef_first_exact_match
      [⟨"__text", 0, 4⟩, ⟨".swift3_fieldmd", 4, 8⟩]
      ["__swift3_fieldmd", ".swift3_fieldmd"] (by decide)).2

/-- Claim C7: `getSectionRef` is invariant under permutation of the alias
list — any two orderings of the same aliases return the same section, so
which alias matched never affects which section is returned; the result
remains the first structurally occurring match in section-table order. -/
theorem getSectionRef_alias_perm_invariant (objectFile : ObjectFile)
    (aliases1 aliases2 : List String) (hperm : aliases1.Perm aliases2) :
    getSectionRef objectFile aliases1 = getSectionRef objectFile aliases2 := by
  induction objectFile with
  | nil => rfl
  | cons a rest ih =>
    rw [getSectionRef, getSectionRef, ih]
    have hany : (aliases1.any (fun d => a.name == d)) =
        (aliases2.any (fun d => a.name == d)) := by
      rw [Bool.eq_iff_iff, anyMatch_iff, anyMatch_iff]
      exact hperm.mem_iff
    rw [hany]

/-- Witness for C7 at a concrete object file and the two orderings of the
TypeRef alias list. -/
theorem getSectionRef_alias_perm_invariant_witness :
    (["__swift3_typeref", ".swift3_typeref"] : List String).Perm
        [".swift3_typeref", "__swift3_typeref"] ∧
      getSectionRef [⟨"__swift3_typeref", 0, 2⟩, ⟨".swift3_typeref", 2, 3⟩]
          ["__swift3_typeref", ".swift3_typeref"] =
        getSectionRef [⟨"__swift3_typeref", 0, 2⟩, ⟨".swift3_typeref", 2, 3⟩]
          [".swift3_typeref", "__swift3_typeref"] :=
  ⟨List.Perm.swap _ _ _,
    getSectionRef_alias_perm_invariant
      [⟨"__swift3_typeref", 0, 2⟩, ⟨".swift3_typeref", 2, 3⟩]
      ["__swift3_typeref", ".swift3_typeref"]
      [".swift3_typeref", "__swift3_typeref"] (List.Perm.swap _ _ _)⟩

/-- Claim C2: for every object file missing at least one required section
under all of its aliases, `assemble` fails with
`MissingRequiredSectionError` carrying the binary's display name and naming
a category that is required and indeed missing, and no bundle reaches the
reporting sink (the result is never `.ok`). -/
theorem assemble_missing_required_fails (objectFile : ObjectFile)
    (binaryFilename : String)
    (hmiss : ∃ c : SectionCategory, c.isRequired = true ∧
      getSectionRef objectFile (sectionAliases c) = none) :
    ∃ c : SectionCategory, c.isRequired = true ∧
      getSectionRef objectFile (sectionAliases c) = none ∧
      assemble objectFile binaryFilename =
        .error (.missingRequiredSection binaryFilename c) ∧
      ∀ b : SectionBundle, assemble objectFile binaryFilename ≠ .ok b := by
  cases hf : getSectionRef objectFile (sectionAliases .Field) with
  | none =>
    refine ⟨.Field, rfl, hf, assemble_eq_error_field objectFile binaryFilename hf, ?_⟩
    intro b hb
    rw [assemble_eq_error_field objectFile binaryFilename hf] at hb
    cases hb
  | some fs =>
    cases ht : getSectionRef objectFile (sectionAliases .TypeRef) with
    | none =>
      refine ⟨.TypeRef, rfl, ht,
        assemble_eq_error_typeRef objectFile binaryFilename fs hf ht, ?_⟩
      intro b hb
      rw [assemble_eq_error_typeRef objectFile binaryFilename fs hf ht] at hb
      cases hb
    | some trs =>
      cases hr : getSectionRef objectFile (sectionAliases .ReflectionStrings) with
      | none =>
        refine ⟨.ReflectionStrings, rfl, hr,
          assemble_eq_error_reflStrings objectFile binaryFilename fs trs hf ht hr, ?_⟩
        intro b hb
        rw [assemble_eq_error_reflStrings objectFile binaryFilename fs trs hf ht hr] at hb
        cases hb
      | some rss =>
        obtain ⟨c, hreq, hnone⟩ := hmiss
        cases c with
        | Field => rw [hf] at hnone; cases hnone
        | TypeRef => rw [ht] at hnone; cases hnone
        | ReflectionStrings => rw [hr] at hnone; cases hnone
        | AssociatedType => cases hreq
        | BuiltinType => cases hreq

/-- Witness for C2 at an object file with an empty section table. -/
theorem assemble_missing_required_fails_witness :
    (∃ c : SectionCategory, c.isRequired = true ∧
        getSectionRef ([] : ObjectFile) (sectionAliases c) = none) ∧
      ∃ c : SectionCategory, c.isRequired = true ∧
        getSectionRef ([] : ObjectFile) (sectionAliases c) = none ∧
        assemble ([] : ObjectFile) "libNone.dylib" =
          .error (.missingRequiredSection "libNone.dylib" c) ∧
        ∀ b : SectionBundle, assemble ([] : ObjectFile) "libNone.dylib" ≠ .ok b :=
  ⟨⟨.Field, rfl, rfl⟩,
    assemble_missing_required_fails [] "libNone.dylib" ⟨.Field, rfl, rfl⟩⟩

/-- Claim C6: when more than one required section is missing, the error
names the first missing required category in declaration order (Field,
then TypeRef, then ReflectionStrings), and any `assemble` failure always
names a required category — the optional categories never cause one. -/
theorem assemble_reports_first_missing_required (objectFile : ObjectFile)
    (binaryFilename : String)
    (htwo : 2 ≤ (([.Field, .TypeRef, .ReflectionStrings] : List SectionCategory).filter
      (fun c => (getSectionRef objectFile (sectionAliases c)).isNone)).length) :
    (∃ c : SectionCategory,
        ([.Field, .TypeRef, .ReflectionStrings] : List SectionCategory).find?
            (fun c => (getSectionRef objectFile (sectionAliases c)).isNone) = some c ∧
          assemble objectFile binaryFilename =
            .error (.missingRequiredSection binaryFilename c)) ∧
      ∀ e : DumpError, assemble objectFile binaryFilename = .error e →
        ∃ c : SectionCategory, c.isRequired = true ∧
          e = .missingRequiredSection binaryFilename c := by
  refine ⟨?_, ?_⟩
  · cases hf : getSectionRef objectFile (sectionAliases .Field) with
    | none =>
      refine ⟨.Field, ?_, assemble_eq_error_field objectFile binaryFilename hf⟩
      simp [List.find?, hf]
    | some fs =>
      cases ht : getSectionRef objectFile (sectionAliases .TypeRef) with
      | none =>
        refine ⟨.TypeRef, ?_,
          assemble_eq_error_typeRef objectFile binaryFilename fs hf ht⟩
        simp [List.find?, hf, ht]
      | some trs =>
        cases hr : getSectionRef objectFile (sectionAliases .ReflectionStrings) with
        | none =>
          refine ⟨.ReflectionStrings, ?_,
            assemble_eq_error_reflStrings objectFile binaryFilename fs trs hf ht hr⟩
          simp [List.find?, hf, ht, hr]
        | some rss =>
          rw [List.filter_cons, List.filter_cons, List.filter_cons, hf, ht, hr] at htwo
          simp at htwo
  · intro e he
    obtain ⟨c, hreq, -, hc⟩ := assemble_error_inv objectFile binaryFilename e he
    exact ⟨c, hreq, hc⟩

/-- Witness for C6 at an object file missing Field and TypeRef but having
ReflectionStrings. -/
theorem assemble_reports_first_missing_required_witness :
    (2 ≤ (([.Field, .TypeRef, .ReflectionStrings] : List SectionCategory).filter
        (fun c => (getSectionRef [(⟨"__swift3_reflstr", 0, 4⟩ : ObjSection)]
          (sectionAliases c)).isNone)).length) ∧
      ((∃ c : SectionCategory,
          ([.Field, .TypeRef, .ReflectionStrings] : List SectionCategory).find?
              (fun c => (getSectionRef [(⟨"__swift3_reflstr", 0, 4⟩ : ObjSection)]
                (sectionAliases c)).isNone) = some c ∧
            assemble [(⟨"__swift3_reflstr", 0, 4⟩ : ObjSection)] "libTwoGone.so" =
              .error (.missingRequiredSection "libTwoGone.so" c)) ∧
        ∀ e : DumpError,
          assemble [(⟨"__swift3_reflstr", 0, 4⟩ : ObjSection)] "libTwoGone.so" =
              .error e →
            ∃ c : SectionCategory, c.isRequired = true ∧
              e = .missingRequiredSection "libTwoGone.so" c) :=
  ⟨by decide,
    assemble_reports_first_missing_required
      [(⟨"__swift3_reflstr", 0, 4⟩ : ObjSection)] "libTwoGone.so" (by decide)⟩

/-- Claim C3 counterexample: an object file that carries all three required
sections, each with zero size, assembles successfully into a bundle whose
required Field range is empty (start equal to stop), so a required category
does not always map to a non-empty byte range. -/
theorem assemble_required_nonempty_counterexample :
    assemble [(⟨"__swift3_fieldmd", 16, 0⟩ : ObjSection),
        ⟨"__swift3_typeref", 16, 0⟩, ⟨"__swift3_reflstr", 16, 0⟩] "libZero.dylib" =
      .ok ⟨"libZero.dylib", ⟨16, 16⟩, ⟨0, 0⟩, ⟨0, 0⟩, ⟨16, 16⟩, ⟨16, 16⟩⟩ ∧
      SectionCategory.isRequired .Field = true ∧
      ¬ ((SectionBundle.rangeOf
          ⟨"libZero.dylib", ⟨16, 16⟩, ⟨0, 0⟩, ⟨0, 0⟩, ⟨16, 16⟩, ⟨16, 16⟩⟩
          .Field).start <
        (SectionBundle.rangeOf
          ⟨"libZero.dylib", ⟨16, 16⟩, ⟨0, 0⟩, ⟨0, 0⟩, ⟨16, 16⟩, ⟨16, 16⟩⟩
          .Field).stop) :=
  ⟨rfl, rfl, by decide⟩

/-- Claim C3 as amended: when every required category is present under some
alias, `assemble` never errors; each required category maps to the located
section's byte range (non-empty whenever that section has non-zero size)
and each optional category maps either to a located byte range or to the
absent sentinel. -/
theorem assemble_complete_ok (objectFile : ObjectFile) (binaryFilename : String)
    (hreq : ∀ c : SectionCategory, c.isRequired = true →
      (getSectionRef objectFile (sectionAliases c)).isSome = true) :
    ∃ b : SectionBundle, assemble objectFile binaryFilename = .ok b ∧
      (∀ c : SectionCategory, c.isRequired = true →
        ∃ s : ObjSection, getSectionRef objectFile (sectionAliases c) = some s ∧
          b.rangeOf c = s.range ∧
          (0 < s.size → (b.rangeOf c).start < (b.rangeOf c).stop)) ∧
      (∀ c : SectionCategory, c.isRequired = false →
        (∃ s : ObjSection, getSectionRef objectFile (sectionAliases c) = some s ∧
            b.rangeOf c = s.range) ∨
          (getSectionRef objectFile (sectionAliases c) = none ∧
            b.rangeOf c = ByteRange.absent)) := by
  obtain ⟨fs, hf⟩ := Option.isSome_iff_exists.mp (hreq .Field rfl)
  obtain ⟨trs, ht⟩ := Option.isSome_iff_exists.mp (hreq .TypeRef rfl)
  obtain ⟨rss, hr⟩ := Option.isSome_iff_exists.mp (hreq .ReflectionStrings rfl)
  refine ⟨_, assemble_eq_ok objectFile binaryFilename fs trs rss hf ht hr, ?_, ?_⟩
  · intro c hc
    cases c with
    | Field =>
      refine ⟨fs, hf, rfl, ?_⟩
      intro hpos
      show fs.range.start < fs.range.stop
      simp only [ObjSection.range]
      omega
    | AssociatedType => exact Bool.noConfusion hc
    | BuiltinType => exact Bool.noConfusion hc
    | TypeRef =>
      refine ⟨trs, ht, rfl, ?_⟩
      intro hpos
      show trs.range.start < trs.range.stop
      simp only [ObjSection.range]
      omega
    | ReflectionStrings =>
      refine ⟨rss, hr, rfl, ?_⟩
      intro hpos
      show rss.range.start < rss.range.stop
      simp only [ObjSection.range]
      omega
  · intro c hc
    cases c with
    | Field => exact Bool.noConfusion hc
    | TypeRef => exact Bool.noConfusion hc
    | ReflectionStrings => exact Bool.noConfusion hc
    | AssociatedType =>
      cases hA : getSectionRef objectFile (sectionAliases .AssociatedType) with
      | none =>
        refine Or.inr ⟨rfl, ?_⟩
        show optionalRange objectFile .AssociatedType = ByteRange.absent
        unfold optionalRange
        rw [hA]
      | some s =>
        refine Or.inl ⟨s, rfl, ?_⟩
        show optionalRange objectFile .AssociatedType = s.range
        unfold optionalRange
        rw [hA]
    | BuiltinType =>
      cases hB : getSectionRef objectFile (sectionAliases .BuiltinType) with
      | none =>
        refine Or.inr ⟨rfl, ?_⟩
        show optionalRange objectFile .BuiltinType = ByteRange.absent
        unfold optionalRange
        rw [hB]
      | some s =>
        refine Or.inl ⟨s, rfl, ?_⟩
        show optionalRange objectFile .BuiltinType = s.range
        unfold optionalRange
        rw [hB]

/-- Witness for the amended C3 at `demoObj`. -/
theorem assemble_complete_ok_witness :
    (∀ c : SectionCategory, c.isRequired = true →
        (getSectionRef demoObj (sectionAliases c)).isSome = true) ∧
      ∃ b : SectionBundle, assemble demoObj "libDemo.dylib" = .ok b ∧
        (∀ c : SectionCategory, c.isRequired = true →
          ∃ s : ObjSection, getSectionRef demoObj (sectionAliases c) = some s ∧
            b.rangeOf c = s.range ∧
            (0 < s.size → (b.rangeOf c).start < (b.rangeOf c).stop)) ∧
        (∀ c : SectionCategory, c.isRequired = false →
          (∃ s : ObjSection, getSectionRef demoObj (sectionAliases c) = some s ∧
              b.rangeOf c = s.range) ∨
            (getSectionRef demoObj (sectionAliases c) = none ∧
              b.rangeOf c = ByteRange.absent)) :=
  have hreq : ∀ c : SectionCategory, c.isRequired = true →
      (getSectionRef demoObj (sectionAliases c)).isSome = true := by
    intro c hc
    cases c with
    | Field => rfl
    | AssociatedType => exact Bool.noConfusion hc
    | BuiltinType => exact Bool.noConfusion hc
    | TypeRef => rfl
    | ReflectionStrings => rfl
  ⟨hreq, assemble_complete_ok demoObj "libDemo.dylib" hreq⟩

/-- Claim C4: when only optional sections are absent, `assemble` succeeds,
and each absent optional category is recorded structurally as the absent
sentinel — a byte range whose start and stop are both the null offset 0 —
never as a thrown error. -/
theorem assemble_optional_absent_sentinel (objectFile : ObjectFile)
    (binaryFilename : String)
    (hreq : ∀ c : SectionCategory, c.isRequired = true →
      (getSectionRef objectFile (sectionAliases c)).isSome = true) :
    ∃ b : SectionBundle, assemble objectFile binaryFilename = .ok b ∧
      (getSectionRef objectFile (sectionAliases .AssociatedType) = none →
        (b.rangeOf .AssociatedType).start = 0 ∧
          (b.rangeOf .AssociatedType).stop = 0 ∧
          b.rangeOf .AssociatedType = ByteRange.absent) ∧
      (getSectionRef objectFile (sectionAliases .BuiltinType) = none →
        (b.rangeOf .BuiltinType).start = 0 ∧
          (b.rangeOf .BuiltinType).stop = 0 ∧
          b.rangeOf .BuiltinType = ByteRange.absent) := by
  obtain ⟨fs, hf⟩ := Option.isSome_iff_exists.mp (hreq .Field rfl)
  obtain ⟨trs, ht⟩ := Option.isSome_iff_exists.mp (hreq .TypeRef rfl)
  obtain ⟨rss, hr⟩ := Option.isSome_iff_exists.mp (hreq .ReflectionStrings rfl)
  refine ⟨_, assemble_eq_ok objectFile binaryFilename fs trs rss hf ht hr, ?_, ?_⟩
  · intro hA
    have hrange : optionalRange objectFile .AssociatedType = ByteRange.absent := by
      unfold optionalRange
      rw [hA]
    exact ⟨congrArg ByteRange.start hrange, congrArg ByteRange.stop hrange, hrange⟩
  · intro hB
    have hrange : optionalRange objectFile .BuiltinType = ByteRange.absent := by
      unfold optionalRange
      rw [hB]
    exact ⟨congrArg ByteRange.start hrange, congrArg ByteRange.stop hrange, hrange⟩

/-- Witness for C4 at `demoObj`, whose optional sections are both absent. -/
theorem assemble_optional_absent_sentinel_witness :
    (∀ c : SectionCategory, c.isRequired = true →
        (getSectionRef demoObj (sectionAliases c)).isSome = true) ∧
      ∃ b : SectionBundle, assemble demoObj "libDemo.dylib" = .ok b ∧
        (getSectionRef demoObj (sectionAliases .AssociatedType) = none →
          (b.rangeOf .AssociatedType).start = 0 ∧
            (b.rangeOf .AssociatedType).stop = 0 ∧
            b.rangeOf .AssociatedType = ByteRange.absent) ∧
        (getSectionRef demoObj (sectionAliases .BuiltinType) = none →
          (b.rangeOf .BuiltinType).start = 0 ∧
            (b.rangeOf .BuiltinType).stop = 0 ∧
            b.rangeOf .BuiltinType = ByteRange.absent) :=
  have hreq : ∀ c : SectionCategory, c.isRequired = true →
      (getSectionRef demoObj (sectionAliases c)).isSome = true := by
    intro c hc
    cases c with
    | Field => rfl
    | AssociatedType => exact Bool.noConfusion hc
    | BuiltinType => exact Bool.noConfusion hc
    | TypeRef => rfl
    | ReflectionStrings => rfl
  ⟨hreq, assemble_optional_absent_sentinel demoObj "libDemo.dylib" hreq⟩

/-- Claim C9: every byte range recorded in an assembled bundle — a located
section's range or the absent sentinel — satisfies start ≤ stop, and both
byte-range constructors (`ObjSection.range` and `ByteRange.absent`)
preserve the invariant. -/
theorem bundle_byteRange_start_le_stop (objectFile : ObjectFile)
    (binaryFilename : String) (b : SectionBundle)
    (h : assemble objectFile binaryFilename = .ok b) :
    (∀ c : SectionCategory, (b.rangeOf c).start ≤ (b.rangeOf c).stop) ∧
      (∀ s : ObjSection, s.range.start ≤ s.range.stop) ∧
      ByteRange.absent.start ≤ ByteRange.absent.stop := by
  refine ⟨?_, fun s => Nat.le_add_right s.addr s.size, Nat.le_refl 0⟩
  obtain ⟨fs, trs, rss, hf, ht, hr, rfl⟩ :=
    assemble_ok_inv objectFile binaryFilename b h
  intro c
  cases c with
  | Field => exact Nat.le_add_right fs.addr fs.size
  | TypeRef => exact Nat.le_add_right trs.addr trs.size
  | ReflectionStrings => exact Nat.le_add_right rss.addr rss.size
  | AssociatedType =>
    show (optionalRange objectFile .AssociatedType).start ≤
      (optionalRange objectFile .AssociatedType).stop
    unfold optionalRange
    cases hA : getSectionRef objectFile (sectionAliases .AssociatedType) with
    | none => exact Nat.le_refl 0
    | some s => exact Nat.le_add_right s.addr s.size
  | BuiltinType =>
    show (optionalRange objectFile .BuiltinType).start ≤
      (optionalRange objectFile .BuiltinType).stop
    unfold optionalRange
    cases hB : getSectionRef objectFile (sectionAliases .BuiltinType) with
    | none => exact Nat.le_refl 0
    | some s => exact Nat.le_add_right s.addr s.size

/-- Witness for C9 at `demoObj` and its bundle. -/
theorem bundle_byteRange_start_le_stop_witness :
    assemble demoObj "libDemo.dylib" = .ok demoBundle ∧
      ((∀ c : SectionCategory,
          (demoBundle.rangeOf c).start ≤ (demoBundle.rangeOf c).stop) ∧
        (∀ s : ObjSection, s.range.start ≤ s.range.stop) ∧
        ByteRange.absent.start ≤ ByteRange.absent.stop) :=
  ⟨rfl, bundle_byteRange_start_le_stop demoObj "libDemo.dylib" demoBundle rfl⟩

/-- Claim C5: requesting an architecture that exactly matches no slice of a
multi-slice container fails the run with `ArchitectureNotFoundError`; the
run never silently falls back to another slice (no bundle is produced) and
section assembly is never reached (the outcome is not an assembly
outcome). -/
theorem doDump_arch_not_found (slices : List (String × ObjectFile))
    (binaryFilename arch : String) (h : ∀ p ∈ slices, p.1 ≠ arch) :
    doDumpReflectionSections (.valid (.universal slices)) binaryFilename arch =
        .error (.architectureNotFound arch) ∧
      (∀ b : SectionBundle,
        doDumpReflectionSections (.valid (.universal slices)) binaryFilename arch ≠
          .ok b) ∧
      (∀ (n : String) (c : SectionCategory),
        doDumpReflectionSections (.valid (.universal slices)) binaryFilename arch ≠
          .error (.missingRequiredSection n c)) := by
  have h1 : doDumpReflectionSections (.valid (.universal slices)) binaryFilename arch =
      .error (.architectureNotFound arch) := by
    rw [doDump_universal, selectSlice_eq_error slices arch h]
    rfl
  refine ⟨h1, ?_, ?_⟩
  · intro b hb
    rw [h1] at hb
    exact Except.noConfusion hb
  · intro n c hb
    rw [h1] at hb
    exact DumpError.noConfusion (Except.error.inj hb)

/-- Witness for C5: a two-slice container with x86_64 and arm64 slices,
queried for armv7. -/
theorem doDump_arch_not_found_witness :
    (∀ p ∈ ([("x86_64", []), ("arm64", [])] : List (String × ObjectFile)),
        p.1 ≠ "armv7") ∧
      (doDumpReflectionSections
            (.valid (.universal [("x86_64", []), ("arm64", [])]))
            "libFat.dylib" "armv7" =
          .error (.architectureNotFound "armv7") ∧
        (∀ b : SectionBundle,
          doDumpReflectionSections
              (.valid (.universal [("x86_64", []), ("arm64", [])]))
              "libFat.dylib" "armv7" ≠ .ok b) ∧
        (∀ (n : String) (c : SectionCategory),
          doDumpReflectionSections
              (.valid (.universal [("x86_64", []), ("arm64", [])]))
              "libFat.dylib" "armv7" ≠
            .error (.missingRequiredSection n c))) :=
  ⟨by decide,
    doDump_arch_not_found [("x86_64", []), ("arm64", [])] "libFat.dylib" "armv7"
      (by decide)⟩

/-- Claim C8: an input that is missing, unreadable, or not a recognized
binary container fails the run with `LoadError`; no such input ever
reaches slice selection or section lookup — the outcome is never a bundle,
an architecture error, or a missing-section error. -/
theorem doDump_load_failure (input : RawInput) (binaryFilename arch : String)
    (h : input = .missing ∨ input = .unreadable ∨ input = .unrecognized) :
    doDumpReflectionSections input binaryFilename arch =
        .error (.loadError binaryFilename) ∧
      (∀ b : SectionBundle,
        doDumpReflectionSections input binaryFilename arch ≠ .ok b) ∧
      (∀ a : String,
        doDumpReflectionSections input binaryFilename arch ≠
          .error (.architectureNotFound a)) ∧
      (∀ (n : String) (c : SectionCategory),
        doDumpReflectionSections input binaryFilename arch ≠
          .error (.missingRequiredSection n c)) := by
  have h1 : doDumpReflectionSections input binaryFilename arch =
      .error (.loadError binaryFilename) := by
    rcases h with rfl | rfl | rfl <;> rfl
  refine ⟨h1, ?_, ?_, ?_⟩
  · intro b hb
    rw [h1] at hb
    exact Except.noConfusion hb
  · intro a hb
    rw [h1] at hb
    exact DumpError.noConfusion (Except.error.inj hb)
  · intro n c hb
    rw [h1] at hb
    exact DumpError.noConfusion (Except.error.inj hb)

/-- Witness for C8 at a missing input path. -/
theorem doDump_load_failure_witness :
    ((RawInput.missing = .missing ∨ RawInput.missing = .unreadable ∨
        RawInput.missing = .unrecognized) : Prop) ∧
      (doDumpReflectionSections .missing "nofile.bin" "x86_64" =
          .error (.loadError "nofile.bin") ∧
        (∀ b : SectionBundle,
          doDumpReflectionSections .missing "nofile.bin" "x86_64" ≠ .ok b) ∧
        (∀ a : String,
          doDumpReflectionSections .missing "nofile.bin" "x86_64" ≠
            .error (.architectureNotFound a)) ∧
        (∀ (n : String) (c : SectionCategory),
          doDumpReflectionSections .missing "nofile.bin" "x86_64" ≠
            .error (.missingRequiredSection n c))) :=
  ⟨Or.inl rfl, doDump_load_failure .missing "nofile.bin" "x86_64" (Or.inl rfl)⟩

/-- Claim C10: on a flat single-architecture object file the requested
architecture is ignored — any two requested names give the same run, which
is exactly assembly on that object — and an `ArchitectureNotFoundError`
can only ever arise from a multi-slice container input. -/
theorem doDump_flat_ignores_arch (o : ObjectFile)
    (binaryFilename arch1 arch2 : String) :
    doDumpReflectionSections (.valid (.flat o)) binaryFilename arch1 =
        doDumpReflectionSections (.valid (.flat o)) binaryFilename arch2 ∧
      doDumpReflectionSections (.valid (.flat o)) binaryFilename arch1 =
        assemble o binaryFilename ∧
      ∀ (input : RawInput) (p a a2 : String),
        doDumpReflectionSections input p a = .error (.architectureNotFound a2) →
          ∃ slices : List (String × ObjectFile),
            input = .valid (.universal slices) := by
  refine ⟨rfl, rfl, ?_⟩
  intro input p a a2 hrun
  cases input with
  | missing => exact DumpError.noConfusion (Except.error.inj hrun)
  | unreadable => exact DumpError.noConfusion (Except.error.inj hrun)
  | unrecognized => exact DumpError.noConfusion (Except.error.inj hrun)
  | valid b =>
    cases b with
    | universal slices => exact ⟨slices, rfl⟩
    | flat o2 =>
      rw [doDump_flat] at hrun
      obtain ⟨c, -, -, hc⟩ := assemble_error_inv o2 p _ hrun
      exact DumpError.noConfusion hc

end SwiftReflectionDump
